import Mathlib

/-!
Shallow embedding of `src/examples/demo/my_app.c` (the SELinux demo scanner).

The program is a single infinite loop.  Each iteration:
  1. opens `/var/log` (failure: log, sleep 10, continue);
  2. reads directory entries, skipping `.` and `..`; for each other entry it
     builds `path` with `snprintf(path, 512, "/var/log/%s", name)`, calls
     `stat(path, &st)`, and if that succeeds also calls `lstat(path, &st)`
     (overwriting `st`) and `access(path, R_OK)`, prints a classification of
     `st` for the first 5 counted entries, and increments `count` for every
     non-dot entry regardless of probe success;
  3. for each of 10 fixed log-file paths, `open(_, O_RDONLY)`; on success a
     single `read(fd, buf, 1024)`, `close`, a printed line with the byte
     count (possibly negative on read error) and `files_read++`;
  4. `sleep(10)`.

The filesystem is modelled as an oracle `FS` answering each system call; an
iteration is a pure function of `FS` producing a syscall trace plus the
observable results (counts, classified entries, printed entries, per-file
read results).
-/

namespace SelinuxAuditor

/-- Result of a successful `stat`/`lstat`: the fields of `struct stat` that
the program inspects (`S_ISDIR(st.st_mode)`, `S_ISREG(st.st_mode)`,
`st.st_size`).  Real kernels report a non-negative `st_size`, so the size is
a `Nat`. -/
structure FileMeta where
  isDir : Bool
  isReg : Bool
  size : Nat
deriving Repr, DecidableEq

/-- One filesystem-visible operation issued by the program.  The write-class
constructors (`writeF`, `createF`, `unlinkF`, `mkdirP`, `renameP`, `chmodP`)
are present so that the read-only frame property is a statement about which
operations the trace can contain; the program never emits them. -/
inductive Event where
  | openDir
  | readEnt (name : String)
  | statP (path : List Char)
  | lstatP (path : List Char)
  | accessP (path : List Char)
  | closeDir
  | openRO (path : String)
  | readF (path : String)
  | closeF (path : String)
  | sleepE (n : Nat)
  | writeF (path : String)
  | createF (path : String)
  | unlinkF (path : String)
  | mkdirP (path : List Char)
  | renameP (a b : String)
  | chmodP (path : List Char)
deriving Repr, DecidableEq

/-- True exactly for the operations that cannot write, create, delete or
modify a filesystem object. -/
def Event.readOnly : Event → Bool
  | .openDir => true
  | .readEnt _ => true
  | .statP _ => true
  | .lstatP _ => true
  | .accessP _ => true
  | .closeDir => true
  | .openRO _ => true
  | .readF _ => true
  | .closeF _ => true
  | .sleepE _ => true
  | .writeF _ => false
  | .createF _ => false
  | .unlinkF _ => false
  | .mkdirP _ => false
  | .renameP _ _ => false
  | .chmodP _ => false

/-- Filesystem oracle: the answers the kernel gives to each call the program
makes during one iteration. -/
structure FS where
  /-- Outcome of `opendir("/var/log")`: `none` if it fails, otherwise the
  entry names `readdir` returns, in order (including `.` and `..` when
  present). -/
  dirEntries : Option (List String)
  /-- Outcome of `stat(path, &st)`: `none` on failure. -/
  statOf : List Char → Option FileMeta
  /-- Outcome of `lstat(path, &st)`: `none` on failure (then the buffer
  keeps the value the preceding `stat` stored). -/
  lstatOf : List Char → Option FileMeta
  /-- Outcome of `access(path, R_OK)` (result discarded by the program). -/
  accessOf : List Char → Bool
  /-- Whether `open(path, O_RDONLY)` returns a valid descriptor. -/
  openOf : String → Bool
  /-- Result of the single `read(fd, buf, 1024)` on that path
  (negative on error, as the C `ssize_t`). -/
  readOf : String → Int

/-- Path built by `snprintf(path, sizeof(path), "/var/log/%s", name)` with
`char path[512]`: the formatted bytes, silently truncated to at most 511
characters (one byte is reserved for the terminating NUL). -/
def entryPath (name : String) : List Char :=
  ("/var/log/".data ++ name.data).take 511

/-- The `strcmp(entry->d_name, ".") == 0 || strcmp(entry->d_name, "..") == 0`
test that skips the self and parent pseudo-entries. -/
def isDot (n : String) : Bool :=
  decide (n = "." ∨ n = "..")

/-- Classification of a directory entry. -/
inductive EntClass where
  | directory
  | regularFile (size : Nat)
  | other
deriving Repr, DecidableEq

/-- The `S_ISDIR` / `S_ISREG` / fallthrough chain applied to the `struct
stat` buffer `st`. -/
def classify (m : FileMeta) : EntClass :=
  if m.isDir then .directory
  else if m.isReg then .regularFile m.size
  else .other

/-- Observables of phase 2 (directory scan): final `count`, the entries
surfaced in the verbose output, all classified entries, and the trace. -/
structure ScanAcc where
  count : Nat
  printed : List (String × EntClass)
  classified : List (String × EntClass)
  events : List Event
deriving Repr, DecidableEq

/-- The `while ((entry = readdir(dir)) != NULL)` loop of phase 2, processing
the remaining entry names with the current value of `count`. -/
def scanEntriesAux (fs : FS) : List String → Nat → ScanAcc
  | [], c => { count := c, printed := [], classified := [], events := [] }
  | name :: rest, c =>
    if isDot name then
      let r := scanEntriesAux fs rest c
      { r with events := Event.readEnt name :: r.events }
    else
      let p := entryPath name
      match fs.statOf p with
      | none =>
        let r := scanEntriesAux fs rest (c + 1)
        { r with events := Event.readEnt name :: Event.statP p :: r.events }
      | some stRes =>
        let st := (fs.lstatOf p).getD stRes
        let cls := classify st
        let r := scanEntriesAux fs rest (c + 1)
        { count := r.count,
          printed := if c < 5 then (name, cls) :: r.printed else r.printed,
          classified := (name, cls) :: r.classified,
          events := Event.readEnt name :: Event.statP p :: Event.lstatP p ::
            Event.accessP p :: r.events }

/-- Phase 2 from its entry point: `count = 0`. -/
def scanEntries (fs : FS) (names : List String) : ScanAcc :=
  scanEntriesAux fs names 0

/-- The 10 fixed sample-file paths (the `log_files` array; the terminating
`NULL` ends the array and is not a path). -/
def log_files : List String :=
  ["/var/log/messages", "/var/log/secure", "/var/log/cron",
   "/var/log/maillog", "/var/log/boot.log", "/var/log/dmesg",
   "/var/log/audit/audit.log", "/var/log/yum.log", "/var/log/spooler",
   "/var/log/tuned/tuned.log"]

/-- One step of the phase-3 `for` loop body: open read-only; on success one
read, a close, and a recorded `(path, bytes)` line; on failure nothing. -/
def sampleFile (fs : FS) (p : String) : List Event × Option (String × Int) :=
  if fs.openOf p then
    ([Event.openRO p, Event.readF p, Event.closeF p], some (p, fs.readOf p))
  else
    ([Event.openRO p], none)

/-- Observable result of one whole loop iteration. -/
structure IterResult where
  events : List Event
  opened : Bool
  count : Nat
  printed : List (String × EntClass)
  classified : List (String × EntClass)
  readResults : List (String × Int)
  filesRead : Nat
deriving Repr, DecidableEq

/-- One iteration of the `while (1)` loop body, as a function of the
filesystem oracle.  On `opendir` failure the error is logged and the
iteration is only `[openDir, sleep 10]`; otherwise phases 2 and 3 run and
the iteration ends with `sleep(10)`. -/
def runIteration (fs : FS) : IterResult :=
  match fs.dirEntries with
  | none =>
    { events := [Event.openDir, Event.sleepE 10], opened := false,
      count := 0, printed := [], classified := [], readResults := [],
      filesRead := 0 }
  | some names =>
    let p2 := scanEntries fs names
    let p3evs := (log_files.map fun p => (sampleFile fs p).1).flatten
    let p3res := log_files.filterMap fun p => (sampleFile fs p).2
    { events := Event.openDir :: p2.events ++ [Event.closeDir] ++ p3evs ++
        [Event.sleepE 10],
      opened := true, count := p2.count, printed := p2.printed,
      classified := p2.classified, readResults := p3res,
      filesRead := p3res.length }

/-- One pass of the outer loop: `iteration++` happens before `opendir`, so
the counter advances whether or not the directory opens. -/
def loopStep (fs : FS) (iter : Nat) : Nat × IterResult :=
  (iter + 1, runIteration fs)

/-- Running the first `n` iterations against a fixed filesystem, starting
from `iteration = 0`: the final counter value and the iteration results in
order. -/
def runLoop (fs : FS) : Nat → Nat × List IterResult
  | 0 => (0, [])
  | n + 1 =>
    let s := runLoop fs n
    let t := loopStep fs s.1
    (t.1, s.2 ++ [t.2])

/-! ### Helper lemmas about the directory-scan phase -/

/-- Every event the directory-scan loop emits is a read-only operation. -/
theorem scan_events_readOnly (fs : FS) :
    ∀ (names : List String) (c : Nat) (e : Event),
      e ∈ (scanEntriesAux fs names c).events → e.readOnly = true := by
  intro names
  induction names with
  | nil => intro c e h; simp [scanEntriesAux] at h
  | cons name rest ih =>
    intro c e h
    by_cases hd : isDot name
    · simp only [scanEntriesAux, hd, if_true, List.mem_cons] at h
      rcases h with h | h
      · subst h; rfl
      · exact ih c e h
    · rcases hst : fs.statOf (entryPath name) with _ | m
      · simp only [scanEntriesAux, hd, if_false, hst, Bool.false_eq_true,
          List.mem_cons] at h
        rcases h with h | h | h
        · subst h; rfl
        · subst h; rfl
        · exact ih (c + 1) e h
      · simp only [scanEntriesAux, hd, if_false, hst, Bool.false_eq_true,
          List.mem_cons] at h
        rcases h with h | h | h | h | h
        · subst h; rfl
        · subst h; rfl
        · subst h; rfl
        · subst h; rfl
        · exact ih (c + 1) e h

/-- The final `count` is the starting value plus the number of non-dot
entries, whether or not their probes succeeded. -/
theorem scan_count (fs : FS) :
    ∀ (names : List String) (c : Nat),
      (scanEntriesAux fs names c).count
        = c + (names.filter fun n => !isDot n).length := by
  intro names
  induction names with
  | nil => intro c; simp [scanEntriesAux]
  | cons name rest ih =>
    intro c
    by_cases hd : isDot name
    · simp [scanEntriesAux, hd, ih]
    · rcases hst : fs.statOf (entryPath name) with _ | m
      · simp only [scanEntriesAux, hd, if_false, hst, Bool.false_eq_true]
        rw [ih]
        simp [hd]
        omega
      · simp only [scanEntriesAux, hd, if_false, hst, Bool.false_eq_true]
        rw [ih]
        simp [hd]
        omega

/-- Every classified entry passed its symlink-following probe, and its class
is computed from the `lstat` result when `lstat` succeeded (the buffer is
overwritten), falling back to the `stat` result otherwise. -/
theorem scan_classified_mem (fs : FS) :
    ∀ (names : List String) (c : Nat) (name : String) (cl : EntClass),
      (name, cl) ∈ (scanEntriesAux fs names c).classified →
      ∃ m, fs.statOf (entryPath name) = some m ∧
        cl = classify ((fs.lstatOf (entryPath name)).getD m) := by
  intro names
  induction names with
  | nil => intro c name cl h; simp [scanEntriesAux] at h
  | cons hd rest ih =>
    intro c name cl h
    by_cases hdot : isDot hd
    · simp only [scanEntriesAux, hdot, if_true] at h
      exact ih c name cl h
    · rcases hst : fs.statOf (entryPath hd) with _ | m
      · simp only [scanEntriesAux, hdot, if_false, hst,
          Bool.false_eq_true] at h
        exact ih (c + 1) name cl h
      · simp only [scanEntriesAux, hdot, if_false, hst, Bool.false_eq_true,
          List.mem_cons, Prod.mk.injEq] at h
        rcases h with ⟨h1, h2⟩ | h
        · subst h1
          exact ⟨m, hst, h2⟩
        · exact ih (c + 1) name cl h

/-- The classified list does not depend on the running counter. -/
theorem scan_classified_counter (fs : FS) :
    ∀ (names : List String) (c c' : Nat),
      (scanEntriesAux fs names c).classified
        = (scanEntriesAux fs names c').classified := by
  intro names
  induction names with
  | nil => intro c c'; simp [scanEntriesAux]
  | cons name rest ih =>
    intro c c'
    by_cases hd : isDot name
    · simp only [scanEntriesAux, hd, if_true]
      exact ih c c'
    · rcases hst : fs.statOf (entryPath name) with _ | m
      · simp only [scanEntriesAux, hd, if_false, hst, Bool.false_eq_true]
        exact ih (c + 1) (c' + 1)
      · simp only [scanEntriesAux, hd, if_false, hst, Bool.false_eq_true]
        rw [ih (c + 1) (c' + 1)]

/-- At most one classified entry per processed entry. -/
theorem scan_classified_length (fs : FS) :
    ∀ (names : List String) (c : Nat),
      (scanEntriesAux fs names c).classified.length ≤ names.length := by
  intro names
  induction names with
  | nil => intro c; simp [scanEntriesAux]
  | cons name rest ih =>
    intro c
    by_cases hd : isDot name
    · simp only [scanEntriesAux, hd, if_true, List.length_cons]
      exact Nat.le_succ_of_le (ih c)
    · rcases hst : fs.statOf (entryPath name) with _ | m
      · simp only [scanEntriesAux, hd, if_false, hst, Bool.false_eq_true,
          List.length_cons]
        exact Nat.le_succ_of_le (ih (c + 1))
      · simp only [scanEntriesAux, hd, if_false, hst, Bool.false_eq_true,
          List.length_cons]
        exact Nat.succ_le_succ (ih (c + 1))

/-- The `count < 5` guard counts all processed entries, including ones whose
probe failed: the printed list is exactly the classified sublist of the
first `5 - c` non-dot entry names. -/
theorem scan_printed (fs : FS) :
    ∀ (names : List String) (c : Nat),
      (scanEntriesAux fs names c).printed
        = (scanEntriesAux fs
            ((names.filter fun n => !isDot n).take (5 - c)) 0).classified := by
  intro names
  induction names with
  | nil => intro c; simp [scanEntriesAux]
  | cons name rest ih =>
    intro c
    by_cases hd : isDot name
    · simp only [scanEntriesAux, hd, if_true, List.filter_cons,
        Bool.not_true, Bool.false_eq_true]
      rw [if_neg (by simp)]
      exact ih c
    · have hfil : ((name :: rest).filter fun n => !isDot n)
          = name :: (rest.filter fun n => !isDot n) := by
        simp [List.filter_cons, hd]
      rcases hst : fs.statOf (entryPath name) with _ | m
      · by_cases hc : c < 5
        · have h5 : 5 - c = (5 - (c + 1)) + 1 := by omega
          simp only [scanEntriesAux, hd, if_false, hst, Bool.false_eq_true]
          rw [ih (c + 1), hfil, h5, List.take_succ_cons]
          simp only [scanEntriesAux, hd, if_false, hst, Bool.false_eq_true]
          exact scan_classified_counter fs _ 0 (0 + 1)
        · have h5 : 5 - c = 0 := by omega
          have h5' : 5 - (c + 1) = 0 := by omega
          simp only [scanEntriesAux, hd, if_false, hst, Bool.false_eq_true]
          rw [ih (c + 1), h5, h5', List.take_zero, List.take_zero]
      · by_cases hc : c < 5
        · have h5 : 5 - c = (5 - (c + 1)) + 1 := by omega
          simp only [scanEntriesAux, hd, if_false, hst, Bool.false_eq_true,
            hc, if_true]
          rw [ih (c + 1), hfil, h5, List.take_succ_cons]
          simp only [scanEntriesAux, hd, if_false, hst, Bool.false_eq_true]
          exact congrArg (List.cons _) (scan_classified_counter fs _ 0 (0 + 1))
        · have h5 : 5 - c = 0 := by omega
          have h5' : 5 - (c + 1) = 0 := by omega
          simp only [scanEntriesAux, hd, if_false, hst, Bool.false_eq_true,
            hc, if_false]
          rw [ih (c + 1), h5, h5', List.take_zero, List.take_zero]

/-! ### Helper lemmas about the file-sampling phase -/

/-- The recorded per-file lines are, in list order, one `(path, bytes)` pair
for every path whose open succeeded. -/
theorem sample_results (fs : FS) :
    ∀ l : List String,
      (l.filterMap fun p => (sampleFile fs p).2)
        = (l.filter fs.openOf).map fun p => (p, fs.readOf p) := by
  intro l
  induction l with
  | nil => simp
  | cons p rest ih =>
    by_cases h : fs.openOf p
    · have h2 : (sampleFile fs p).2 = some (p, fs.readOf p) := by
        simp [sampleFile, h]
      simp [List.filterMap_cons, List.filter_cons, h, h2, ih]
    · have h2 : (sampleFile fs p).2 = none := by simp [sampleFile, h]
      simp [List.filterMap_cons, List.filter_cons, h, h2, ih]

/-- Every event of the sampling phase is a read-only operation. -/
theorem sample_events_readOnly (fs : FS) (l : List String) (e : Event)
    (h : e ∈ (l.map fun p => (sampleFile fs p).1).flatten) :
    e.readOnly = true := by
  rw [List.mem_flatten] at h
  rcases h with ⟨s, hs, he⟩
  rcases List.mem_map.mp hs with ⟨p, _, rfl⟩
  by_cases hp : fs.openOf p
  · simp only [sampleFile, hp, if_true, List.mem_cons,
      List.not_mem_nil, or_false] at he
    rcases he with rfl | rfl | rfl <;> rfl
  · simp only [sampleFile, hp, if_false, Bool.false_eq_true, List.mem_cons,
      List.not_mem_nil, or_false] at he
    subst he; rfl

/-- Every path in the list gets its read-only open attempted, whatever the
outcomes for the other paths. -/
theorem sample_open_mem (fs : FS) (l : List String) (p : String)
    (hp : p ∈ l) :
    Event.openRO p ∈ (l.map fun q => (sampleFile fs q).1).flatten := by
  rw [List.mem_flatten]
  refine ⟨(sampleFile fs p).1, List.mem_map_of_mem _ hp, ?_⟩
  by_cases h : fs.openOf p <;> simp [sampleFile, h]

/-- A successful open is followed by a read and a close of that path. -/
theorem sample_rw_mem (fs : FS) (l : List String) (p : String) (hp : p ∈ l)
    (ho : fs.openOf p = true) :
    Event.readF p ∈ (l.map fun q => (sampleFile fs q).1).flatten ∧
    Event.closeF p ∈ (l.map fun q => (sampleFile fs q).1).flatten := by
  constructor <;>
    · rw [List.mem_flatten]
      exact ⟨(sampleFile fs p).1, List.mem_map_of_mem _ hp,
        by simp [sampleFile, ho]⟩

/-! ### Helper lemmas about a whole iteration -/

/-- Trace decomposition of a successful iteration. -/
theorem runIteration_events (fs : FS) (names : List String)
    (hd : fs.dirEntries = some names) :
    (runIteration fs).events
      = Event.openDir :: (scanEntries fs names).events ++ [Event.closeDir]
          ++ (log_files.map fun p => (sampleFile fs p).1).flatten
          ++ [Event.sleepE 10] := by
  simp [runIteration, hd]

/-- Observable fields of a successful iteration in terms of the two
phases. -/
theorem runIteration_fields (fs : FS) (names : List String)
    (hd : fs.dirEntries = some names) :
    (runIteration fs).count = (scanEntries fs names).count ∧
    (runIteration fs).printed = (scanEntries fs names).printed ∧
    (runIteration fs).classified = (scanEntries fs names).classified ∧
    (runIteration fs).readResults
      = (log_files.filterMap fun p => (sampleFile fs p).2) ∧
    (runIteration fs).filesRead
      = (log_files.filterMap fun p => (sampleFile fs p).2).length := by
  simp [runIteration, hd]

/-! ### Concrete filesystems for witnesses and counterexamples -/

/-- Small concrete filesystem for witnesses: `/var/log` holds `.`, `..`,
`a.log` (regular file, 100 bytes) and `sub` (directory); of the sample
files only `/var/log/messages` opens, and its read returns 50 bytes. -/
def wFS : FS where
  dirEntries := some [".", "..", "a.log", "sub"]
  statOf := fun p =>
    if p = entryPath "a.log" then some ⟨false, true, 100⟩
    else if p = entryPath "sub" then some ⟨true, false, 4096⟩
    else none
  lstatOf := fun p =>
    if p = entryPath "a.log" then some ⟨false, true, 100⟩
    else if p = entryPath "sub" then some ⟨true, false, 4096⟩
    else none
  accessOf := fun _ => true
  openOf := fun p => p == "/var/log/messages"
  readOf := fun _ => 50

/-- Concrete filesystem where `/var/log` cannot be opened. -/
def wFS4 : FS where
  dirEntries := none
  statOf := fun _ => none
  lstatOf := fun _ => none
  accessOf := fun _ => false
  openOf := fun _ => false
  readOf := fun _ => 0

/-- Concrete filesystem where `/var/log/messages` opens but its single
read fails, returning -1. -/
def wFS9 : FS where
  dirEntries := some []
  statOf := fun _ => none
  lstatOf := fun _ => none
  accessOf := fun _ => false
  openOf := fun p => p == "/var/log/messages"
  readOf := fun _ => -1

/-- Concrete filesystem where `/var/log/link` is a symlink to a 100-byte
regular file: the symlink-following probe reports a regular file while the
non-following probe reports the 7-byte link itself. -/
def fsLink : FS where
  dirEntries := some ["link"]
  statOf := fun p =>
    if p = entryPath "link" then some ⟨false, true, 100⟩ else none
  lstatOf := fun p =>
    if p = entryPath "link" then some ⟨false, false, 7⟩ else none
  accessOf := fun _ => true
  openOf := fun _ => false
  readOf := fun _ => 0

/-- Concrete filesystem whose single entry fails its symlink-following
probe (even though the non-following probe would succeed). -/
def fsGone : FS where
  dirEntries := some ["gone"]
  statOf := fun _ => none
  lstatOf := fun _ => some ⟨false, true, 1⟩
  accessOf := fun _ => true
  openOf := fun _ => false
  readOf := fun _ => 0

/-- Concrete filesystem with six entries of which the first fails its
probe: five entries classify, but only four fall within the `count < 5`
printing window. -/
def fs6 : FS where
  dirEntries := some ["a", "b", "c", "d", "e", "f"]
  statOf := fun p => if p = entryPath "a" then none else some ⟨false, true, 1⟩
  lstatOf := fun _ => none
  accessOf := fun _ => true
  openOf := fun _ => false
  readOf := fun _ => 0

/-- If the classifier outputs `regularFile s` then `s` is the probed
size. -/
theorem classify_regularFile_size (m : FileMeta) (s : Nat)
    (h : classify m = EntClass.regularFile s) : s = m.size := by
  by_cases h1 : m.isDir
  · simp [classify, h1] at h
  · by_cases h2 : m.isReg
    · simp [classify, h1, h2] at h
      exact h.symm
    · simp [classify, h1, h2] at h

/-! ### Claim theorems -/

/-- C1: every filesystem operation an iteration issues — the directory
open, directory enumeration, the metadata probes, the sample-file opens,
reads and closes — is read-only; no trace ever contains a write, create,
delete, rename or permission-change operation. -/
theorem C1_iteration_read_only (fs : FS) (e : Event)
    (h : e ∈ (runIteration fs).events) : e.readOnly = true := by
  rcases hd : fs.dirEntries with _ | names
  · simp only [runIteration, hd, List.mem_cons, List.not_mem_nil,
      or_false] at h
    rcases h with rfl | rfl <;> rfl
  · rw [runIteration_events fs names hd] at h
    simp only [List.cons_append, List.mem_cons, List.mem_append,
      List.not_mem_nil, or_false] at h
    rcases h with rfl | h
    · rfl
    rcases h with ((h | rfl) | h) | rfl
    · exact scan_events_readOnly fs names 0 e h
    · rfl
    · exact sample_events_readOnly fs log_files e h
    · rfl

/-- Witness for C1 at a concrete filesystem and event. -/
theorem C1_iteration_read_only_witness :
    Event.openDir ∈ (runIteration wFS).events ∧
    Event.openDir.readOnly = true :=
  ⟨by decide, C1_iteration_read_only wFS Event.openDir (by decide)⟩

/-- C2 counterexample: in `fsLink` the symlink-following probe for the
entry `link` reports a 100-byte regular file, yet the iteration classifies
the entry as Other — the `lstat` call overwrote the shared `struct stat`
buffer before the classification was read out, so the classification does
come from a later probe. -/
theorem C2_counterexample :
    fsLink.statOf (entryPath "link") = some ⟨false, true, 100⟩ ∧
    classify ⟨false, true, 100⟩ = EntClass.regularFile 100 ∧
    (runIteration fsLink).classified = [("link", EntClass.other)] ∧
    EntClass.other ≠ EntClass.regularFile 100 := by decide

/-- C2 (amended): for every classified entry, the classification and the
recorded size are computed from the symlink-non-following (`lstat`) probe's
result when that probe succeeds (it overwrites the shared buffer), and from
the symlink-following (`stat`) result only when `lstat` fails; the recorded
size is the (non-negative) size of that surviving result. -/
theorem C2_classification_source (fs : FS) (names : List String)
    (name : String) (cl : EntClass) (hd : fs.dirEntries = some names)
    (h : (name, cl) ∈ (runIteration fs).classified) :
    ∃ m, fs.statOf (entryPath name) = some m ∧
      cl = classify ((fs.lstatOf (entryPath name)).getD m) ∧
      ∀ s, cl = EntClass.regularFile s →
        s = ((fs.lstatOf (entryPath name)).getD m).size := by
  rw [(runIteration_fields fs names hd).2.2.1] at h
  obtain ⟨m, hm, hcl⟩ := scan_classified_mem fs names 0 name cl h
  refine ⟨m, hm, hcl, ?_⟩
  intro s hs
  exact classify_regularFile_size _ s (hcl.symm.trans hs)

/-- Witness for C2 (amended) at a concrete filesystem and entry. -/
theorem C2_classification_source_witness :
    wFS.dirEntries = some [".", "..", "a.log", "sub"] ∧
    ("a.log", EntClass.regularFile 100) ∈ (runIteration wFS).classified ∧
    ∃ m, wFS.statOf (entryPath "a.log") = some m ∧
      EntClass.regularFile 100
        = classify ((wFS.lstatOf (entryPath "a.log")).getD m) ∧
      ∀ s, EntClass.regularFile 100 = EntClass.regularFile s →
        s = ((wFS.lstatOf (entryPath "a.log")).getD m).size :=
  ⟨by decide, by decide,
    C2_classification_source wFS [".", "..", "a.log", "sub"] "a.log"
      (EntClass.regularFile 100) (by decide) (by decide)⟩

/-- C3 counterexample: in `fsGone` the single entry's symlink-following
probe fails, and then the non-following probe and the access check are
never issued — the trace holds the `stat` probe but neither the `lstat`
probe nor the `access` check, contradicting "all three are attempted even
when the first fails". -/
theorem C3_counterexample :
    fsGone.statOf (entryPath "gone") = none ∧
    Event.statP (entryPath "gone") ∈ (runIteration fsGone).events ∧
    Event.lstatP (entryPath "gone") ∉ (runIteration fsGone).events ∧
    Event.accessP (entryPath "gone") ∉ (runIteration fsGone).events := by
  decide

/-- C3 (amended): for every non-dot directory entry, when the
symlink-following probe succeeds, all three probes are issued in the fixed
order stat, lstat, access; when the symlink-following probe fails, the
other two probes are skipped for that entry. -/
theorem C3_probe_order (fs : FS) (name : String) (rest : List String)
    (c : Nat) (hdot : isDot name = false) :
    (fs.statOf (entryPath name) = none →
      (scanEntriesAux fs (name :: rest) c).events
        = Event.readEnt name :: Event.statP (entryPath name)
            :: (scanEntriesAux fs rest (c + 1)).events) ∧
    (∀ m, fs.statOf (entryPath name) = some m →
      (scanEntriesAux fs (name :: rest) c).events
        = Event.readEnt name :: Event.statP (entryPath name)
            :: Event.lstatP (entryPath name)
            :: Event.accessP (entryPath name)
            :: (scanEntriesAux fs rest (c + 1)).events) := by
  constructor
  · intro h
    simp [scanEntriesAux, hdot, h]
  · intro m h
    simp [scanEntriesAux, hdot, h]

/-- Witness for C3 (amended) at a concrete filesystem and entry. -/
theorem C3_probe_order_witness :
    isDot "a.log" = false ∧
    (scanEntriesAux wFS ["a.log"] 0).events
      = [Event.readEnt "a.log", Event.statP (entryPath "a.log"),
         Event.lstatP (entryPath "a.log"),
         Event.accessP (entryPath "a.log")] :=
  ⟨by decide, by
    have h := (C3_probe_order wFS "a.log" [] 0 (by decide)).2
      ⟨false, true, 100⟩ (by decide)
    simpa [scanEntriesAux] using h⟩

/-- C4: when the target directory cannot be opened, the iteration is
non-fatal: the enumeration, probing and sampling phases are skipped
entirely (the trace is just the failed open followed by the fixed sleep),
no entries are counted, classified, printed or sampled, and the loop
counter still advances to the next iteration. -/
theorem C4_open_failure_nonfatal (fs : FS) (i : Nat)
    (hd : fs.dirEntries = none) :
    loopStep fs i
      = (i + 1,
         { events := [Event.openDir, Event.sleepE 10], opened := false,
           count := 0, printed := [], classified := [], readResults := [],
           filesRead := 0 }) := by
  simp [loopStep, runIteration, hd]

/-- Witness for C4 at a concrete filesystem. -/
theorem C4_open_failure_nonfatal_witness :
    wFS4.dirEntries = none ∧
    loopStep wFS4 1
      = (2, { events := [Event.openDir, Event.sleepE 10], opened := false,
              count := 0, printed := [], classified := [],
              readResults := [], filesRead := 0 }) :=
  ⟨rfl, C4_open_failure_nonfatal wFS4 1 rfl⟩

/-- C5: every directory entry other than `.` and `..` contributes exactly
once to the reported total-entries count whether or not its probe
succeeded (the count is the number of non-dot entry names), and entries
whose symlink-following probe failed never appear in the classified
output. -/
theorem C5_counting (fs : FS) (names : List String)
    (hd : fs.dirEntries = some names) :
    (runIteration fs).count
      = (names.filter fun n => !isDot n).length ∧
    ∀ name cl, (name, cl) ∈ (runIteration fs).classified →
      fs.statOf (entryPath name) ≠ none := by
  obtain ⟨hc, _, hcl, _, _⟩ := runIteration_fields fs names hd
  constructor
  · rw [hc]
    simpa using scan_count fs names 0
  · intro name cl h
    rw [hcl] at h
    obtain ⟨m, hm, _⟩ := scan_classified_mem fs names 0 name cl h
    simp [hm]

/-- Witness for C5 at a concrete filesystem. -/
theorem C5_counting_witness :
    wFS.dirEntries = some [".", "..", "a.log", "sub"] ∧
    (runIteration wFS).count
      = (([".", "..", "a.log", "sub"].filter fun n => !isDot n)).length :=
  ⟨by decide, (C5_counting wFS [".", "..", "a.log", "sub"] (by decide)).1⟩

/-- C6 counterexample: in `fs6` five entries classify successfully, yet
only four appear in the verbose output — the `count < 5` printing guard
counts the probe-failed first entry too, so the printed set is not "the
first 5 successfully classified entries". -/
theorem C6_counterexample :
    (runIteration fs6).classified.length = 5 ∧
    (runIteration fs6).printed ≠ (runIteration fs6).classified.take 5 ∧
    (runIteration fs6).printed.length = 4 := by decide

/-- C6 (amended): the entries surfaced in the verbose per-entry output are
exactly the successfully classified entries among the first 5 counted
(non-dot) entries of the iteration — so at most 5 appear, but fewer than 5
classified entries may be printed when some of those first 5 counted
entries fail their probe; entries beyond the first 5 counted are counted
but never printed. -/
theorem C6_printed_window (fs : FS) (names : List String)
    (hd : fs.dirEntries = some names) :
    (runIteration fs).printed
      = (scanEntries fs
          ((names.filter fun n => !isDot n).take 5)).classified ∧
    (runIteration fs).printed.length ≤ 5 := by
  obtain ⟨_, hp, _, _, _⟩ := runIteration_fields fs names hd
  have h := scan_printed fs names 0
  constructor
  · rw [hp]
    exact h
  · rw [hp]
    show (scanEntriesAux fs names 0).printed.length ≤ 5
    rw [h]
    have h2 := scan_classified_length fs
      ((names.filter fun n => !isDot n).take (5 - 0)) 0
    have h3 : (((names.filter fun n => !isDot n)).take (5 - 0)).length
        ≤ 5 := by
      rw [List.length_take]
      omega
    exact le_trans h2 h3

/-- Witness for C6 (amended) at a concrete filesystem. -/
theorem C6_printed_window_witness :
    wFS.dirEntries = some [".", "..", "a.log", "sub"] ∧
    (runIteration wFS).printed.length ≤ 5 :=
  ⟨by decide,
    (C6_printed_window wFS [".", "..", "a.log", "sub"] (by decide)).2⟩

/-- C7: in every iteration that reaches the sampling phase, each of the 10
fixed sample paths gets a read-only open attempt whatever happens to the
other paths (no short-circuit); each successful open is followed by a
single read and a close; and the recorded per-file results — hence the
reported success count — are exactly one `(path, bytes)` pair, in list
order, for each path whose open succeeded. -/
theorem C7_sampling (fs : FS) (names : List String)
    (hd : fs.dirEntries = some names) :
    (∀ p ∈ log_files, Event.openRO p ∈ (runIteration fs).events) ∧
    (∀ p ∈ log_files, fs.openOf p = true →
      Event.readF p ∈ (runIteration fs).events ∧
      Event.closeF p ∈ (runIteration fs).events) ∧
    (runIteration fs).readResults
      = (log_files.filter fs.openOf).map (fun p => (p, fs.readOf p)) ∧
    (runIteration fs).filesRead = (log_files.filter fs.openOf).length := by
  obtain ⟨_, _, _, hr, hn⟩ := runIteration_fields fs names hd
  have hev := runIteration_events fs names hd
  refine ⟨?_, ?_, ?_, ?_⟩
  · intro p hp
    rw [hev]
    have hm := sample_open_mem fs log_files p hp
    simp [List.mem_append, hm]
  · intro p hp ho
    rw [hev]
    have hm := sample_rw_mem fs log_files p hp ho
    constructor
    · simp [List.mem_append, hm.1]
    · simp [List.mem_append, hm.2]
  · rw [hr, sample_results]
  · rw [hn, sample_results, List.length_map]

/-- Witness for C7 at a concrete filesystem. -/
theorem C7_sampling_witness :
    wFS.dirEntries = some [".", "..", "a.log", "sub"] ∧
    (runIteration wFS).readResults
      = (log_files.filter wFS.openOf).map (fun p => (p, wFS.readOf p)) :=
  ⟨by decide,
    (C7_sampling wFS [".", "..", "a.log", "sub"] (by decide)).2.2.1⟩

/-- C8: one iteration is a pure function of the filesystem state — after
`n` iterations against an unchanged filesystem the counter is exactly `n`
and every iteration produced the very same observable result, so two
consecutive iterations yield identical classifications and counts; nothing
except the counter flows from one iteration to the next. -/
theorem C8_iteration_pure (fs : FS) (n : Nat) :
    (runLoop fs n).1 = n ∧
    (runLoop fs n).2 = List.replicate n (runIteration fs) ∧
    (loopStep fs n).2 = (loopStep fs (n + 1)).2 := by
  refine ⟨?_, ?_, rfl⟩
  · induction n with
    | zero => rfl
    | succ k ih => simp [runLoop, loopStep, ih]
  · induction n with
    | zero => rfl
    | succ k ih => simp [runLoop, loopStep, ih, List.replicate_succ']

/-- C9: a sample path whose open succeeds but whose read fails (negative
byte count) is still recorded — its `(path, bytes)` line is present with
the negative count, and the successfully-opened total is positive; only an
open failure makes a path disappear silently. -/
theorem C9_read_failure_still_counted (fs : FS) (names : List String)
    (p : String) (hd : fs.dirEntries = some names) (hp : p ∈ log_files)
    (ho : fs.openOf p = true) (hr : fs.readOf p < 0) :
    (p, fs.readOf p) ∈ (runIteration fs).readResults ∧
    0 < (runIteration fs).filesRead := by
  obtain ⟨_, _, _, hres, hn⟩ := runIteration_fields fs names hd
  have hmem : (p, fs.readOf p)
      ∈ (log_files.filterMap fun q => (sampleFile fs q).2) := by
    rw [List.mem_filterMap]
    exact ⟨p, hp, by simp [sampleFile, ho]⟩
  constructor
  · rw [hres]
    exact hmem
  · rw [hn]
    exact List.length_pos_of_mem hmem

/-- Witness for C9 at a concrete filesystem whose read returns -1. -/
theorem C9_read_failure_still_counted_witness :
    wFS9.dirEntries = some [] ∧ "/var/log/messages" ∈ log_files ∧
    wFS9.openOf "/var/log/messages" = true ∧
    wFS9.readOf "/var/log/messages" < 0 ∧
    ("/var/log/messages", wFS9.readOf "/var/log/messages")
      ∈ (runIteration wFS9).readResults :=
  ⟨by decide, by decide, by decide, by decide,
    (C9_read_failure_still_counted wFS9 [] "/var/log/messages" (by decide)
      (by decide) (by decide) (by decide)).1⟩

/-- C10: the probed path for a non-dot entry is the join of the target
directory and the entry name, formatted into the 512-byte buffer by a
length-bounded formatter: it never exceeds 511 characters, it is a prefix
of the untruncated join (silent truncation, no error), it equals the full
join whenever that fits, and the `stat` probe is issued against exactly
this buffer content. -/
theorem C10_path_buffer (fs : FS) (name : String) (rest : List String)
    (c : Nat) (hdot : isDot name = false) :
    (entryPath name).length ≤ 511 ∧
    entryPath name <+: ("/var/log/".data ++ name.data) ∧
    (("/var/log/".data ++ name.data).length ≤ 511 →
      entryPath name = "/var/log/".data ++ name.data) ∧
    Event.statP (entryPath name)
      ∈ (scanEntriesAux fs (name :: rest) c).events := by
  refine ⟨?_, ?_, ?_, ?_⟩
  · simp only [entryPath, List.length_take]
    omega
  · exact ⟨("/var/log/".data ++ name.data).drop 511,
      List.take_append_drop 511 _⟩
  · intro h
    exact List.take_of_length_le h
  · rcases hst : fs.statOf (entryPath name) with _ | m <;>
      simp [scanEntriesAux, hdot, hst]

/-- Witness for C10 at a concrete entry name. -/
theorem C10_path_buffer_witness :
    isDot "a.log" = false ∧
    (entryPath "a.log").length ≤ 511 ∧
    Event.statP (entryPath "a.log")
      ∈ (scanEntriesAux wFS ["a.log"] 0).events :=
  ⟨by decide, (C10_path_buffer wFS "a.log" [] 0 (by decide)).1,
    (C10_path_buffer wFS "a.log" [] 0 (by decide)).2.2.2⟩

end SelinuxAuditor
